import Mathlib

/-!
# Verification of the hyperwhisper-fly credit/orchestration core

A shallow embedding, in Lean 4, of the numeric and orchestration core of the
`hyperwhisper-fly` edge gateway (TypeScript), together with theorems settling
the specification claims about it.

Modelling conventions:

* JavaScript numbers are modelled as exact rationals (`ℚ`).  The source code
  works on decimal quantities (tenths of credits, millionths of USD) and uses
  `Number.EPSILON` nudges purely to compensate for binary floating-point
  representation error; in the exact-rational model those nudges are the
  identity and are elided.  `Math.round x` is `⌊x + 1/2⌋`, which is exactly
  Mathlib's `round` on `ℚ`; `Math.ceil` is `⌈·⌉`; `Math.floor` is `⌊·⌋`.
* JavaScript strings are modelled as `List Char`.
* Fallible store reads are modelled as `Except Unit α` values handed to the
  function under consideration (the catch-branch of the source corresponds to
  the `Except.error` case).
* Remote vendor calls are modelled as explicit function parameters
  `request → Except error result`; orchestration functions additionally return
  the list of vendor calls they performed, so that "exactly one fallback call
  with identical arguments" is a statement about that list.
-/

namespace HyperWhisper

/-! ## lib/utils.ts — rounding helpers -/

/-- `roundToTenth` from `src/lib/utils.ts`: round a value to the nearest tenth
(`Math.round((value + EPSILON) * 10) / 10`, half away from zero upwards). -/
def roundToTenth (value : ℚ) : ℚ :=
  (round (value * 10) : ℤ) / 10

/-- `roundUpToTenth` from `src/lib/utils.ts`: round a value up to the next
tenth, clamping non-positive results to `0`. -/
def roundUpToTenth (value : ℚ) : ℚ :=
  let rounded : ℚ := (⌈value * 10⌉ : ℤ) / 10
  if rounded ≤ 0 then 0 else rounded

/-! ## lib/constants.ts -/

/-- `TRIAL_CREDIT_ALLOCATION` from `src/lib/constants.ts`. -/
def TRIAL_CREDIT_ALLOCATION : ℚ := 150

/-- `CREDITS_PER_MINUTE` from `src/lib/constants.ts`. -/
def CREDITS_PER_MINUTE : ℚ := 63 / 10

/-- `BYTES_PER_MINUTE_ESTIMATE` from `src/lib/constants.ts` (1 MiB). -/
def BYTES_PER_MINUTE_ESTIMATE : ℚ := 1024 * 1024

/-! ## lib/cost-calculator.ts -/

/-- `USD_PER_CREDIT` from `src/lib/cost-calculator.ts`: 1 credit = $0.001. -/
def USD_PER_CREDIT : ℚ := 1 / 1000

/-- `DEEPGRAM_COST_PER_AUDIO_MINUTE` from `src/lib/cost-calculator.ts`. -/
def DEEPGRAM_COST_PER_AUDIO_MINUTE : ℚ := 55 / 10000

/-- `roundUsd` from `src/lib/cost-calculator.ts`: round to 6 decimal USD
places (`Math.round((value + EPSILON) * 1_000_000) / 1_000_000`). -/
def roundUsd (value : ℚ) : ℚ :=
  (round (value * 1000000) : ℤ) / 1000000

/-- `computeDeepgramTranscriptionCost` from `src/lib/cost-calculator.ts`. -/
def computeDeepgramTranscriptionCost (durationSeconds : ℚ) : ℚ :=
  roundUsd (durationSeconds / 60 * DEEPGRAM_COST_PER_AUDIO_MINUTE)

/-- `usdToCredits` from `src/lib/cost-calculator.ts`.  The guard returns `0`
for non-positive input; the `USD_PER_CREDIT <= 0` branch of the source is dead
(the constant is `0.001 > 0`) and is not modelled. -/
def usdToCredits (usd : ℚ) : ℚ :=
  if usd ≤ 0 then 0 else usd / USD_PER_CREDIT

/-- `creditsForCost` from `src/lib/cost-calculator.ts`: `0` for non-positive
cost, otherwise the credit conversion rounded to the nearest tenth and floored
at `0.1`. -/
def creditsForCost (costUsd : ℚ) : ℚ :=
  if costUsd ≤ 0 then 0 else max (1 / 10) (roundToTenth (usdToCredits costUsd))

/-! ## lib/redis.ts — device credit records

The Redis value under `device_credits:{deviceId}` is a record with the three
fields written by `initializeDevice` / `deductDeviceCredits`. -/

/-- The stored device-credits record (`credits_remaining`, `total_allocated`,
`credits_used`), as written to Redis by `src/lib/redis.ts`. -/
structure StoredDeviceRecord where
  credits_remaining : ℚ
  total_allocated : ℚ
  credits_used : ℚ
deriving DecidableEq, Repr

/-- The normalized in-memory view (`DeviceCreditsBalance`) produced by
`normalizeDeviceBalance` in `src/lib/redis.ts`.  The `?? fallback` chains of
the source only matter for foreign/absent fields; on records this service
itself writes they read the three stored fields directly. -/
structure DeviceCreditsBalance where
  creditsRemaining : ℚ
  totalAllocated : ℚ
  creditsUsed : ℚ
  minutesRemaining : ℤ
  isExhausted : Bool
deriving DecidableEq, Repr

/-- `normalizeDeviceBalance` from `src/lib/redis.ts`. -/
def normalizeDeviceBalance (raw : StoredDeviceRecord) : DeviceCreditsBalance :=
  let creditsRemaining := roundToTenth raw.credits_remaining
  let creditsUsed := roundToTenth raw.credits_used
  { creditsRemaining := creditsRemaining
    totalAllocated := raw.total_allocated
    creditsUsed := creditsUsed
    minutesRemaining := ⌊creditsRemaining / CREDITS_PER_MINUTE⌋
    isExhausted := decide (creditsRemaining ≤ 0) }

/-- The record written by `initializeDevice` in `src/lib/redis.ts` on first
use of a device id. -/
def initializeDeviceRecord : StoredDeviceRecord :=
  { credits_remaining := TRIAL_CREDIT_ALLOCATION
    total_allocated := TRIAL_CREDIT_ALLOCATION
    credits_used := 0 }

/-- One successful `deductDeviceCredits` call from `src/lib/redis.ts`, as a
transformation of the stored record: read (`getDeviceBalance` →
`normalizeDeviceBalance`), then write the updated record. -/
def deductDeviceCredits (raw : StoredDeviceRecord) (amount : ℚ) : StoredDeviceRecord :=
  let current := normalizeDeviceBalance raw
  { credits_remaining := roundToTenth (max 0 (current.creditsRemaining - amount))
    total_allocated := current.totalAllocated
    credits_used := roundToTenth (current.creditsUsed + amount) }

/-- A rational is an exact multiple of one tenth.  Every amount the ledger
path passes to `deductDeviceCredits` (an output of `creditsForCost`) is one. -/
def isTenthMultiple (q : ℚ) : Prop := ∃ k : ℤ, q = (k : ℚ) / 10

/-! ### Basic rounding lemmas -/

theorem roundToTenth_tenthMultiple (q : ℚ) (h : isTenthMultiple q) :
    roundToTenth q = q := by
  obtain ⟨k, rfl⟩ := h
  have h10 : ((k : ℚ) / 10) * 10 = (k : ℚ) := by
    field_simp
  rw [roundToTenth, h10, round_intCast]

theorem isTenthMultiple_roundToTenth (q : ℚ) : isTenthMultiple (roundToTenth q) :=
  ⟨round (q * 10), rfl⟩

theorem isTenthMultiple_add {a b : ℚ} (ha : isTenthMultiple a)
    (hb : isTenthMultiple b) : isTenthMultiple (a + b) := by
  obtain ⟨j, rfl⟩ := ha
  obtain ⟨k, rfl⟩ := hb
  exact ⟨j + k, by push_cast; ring⟩

theorem isTenthMultiple_sub {a b : ℚ} (ha : isTenthMultiple a)
    (hb : isTenthMultiple b) : isTenthMultiple (a - b) := by
  obtain ⟨j, rfl⟩ := ha
  obtain ⟨k, rfl⟩ := hb
  exact ⟨j - k, by push_cast; ring⟩

theorem isTenthMultiple_max {a b : ℚ} (ha : isTenthMultiple a)
    (hb : isTenthMultiple b) : isTenthMultiple (max a b) := by
  rcases max_cases a b with ⟨h, _⟩ | ⟨h, _⟩ <;> rw [h] <;> assumption

theorem isTenthMultiple_zero : isTenthMultiple 0 := ⟨0, by norm_num⟩

theorem roundToTenth_nonneg {q : ℚ} (h : 0 ≤ q) : 0 ≤ roundToTenth q := by
  have : (0 : ℤ) ≤ round (q * 10) := by
    rw [round_eq, Int.le_floor]
    push_cast
    linarith
  rw [roundToTenth]
  positivity

theorem isTenthMultiple_sum (as : List ℚ) (h : ∀ a ∈ as, isTenthMultiple a) :
    isTenthMultiple as.sum := by
  induction as with
  | nil => simpa using isTenthMultiple_zero
  | cons a as ih =>
    rw [List.sum_cons]
    exact isTenthMultiple_add (h a (by simp)) (ih fun b hb => h b (by simp [hb]))

/-! ### Device ledger iteration (claim C1) -/

/-- The stored record after a sequence of `deductDeviceCredits` calls applied
to a freshly initialized device. -/
def runDeductions (amounts : List ℚ) : StoredDeviceRecord :=
  amounts.foldl deductDeviceCredits initializeDeviceRecord

theorem deduct_credits_remaining_nonneg (raw : StoredDeviceRecord) (amount : ℚ) :
    0 ≤ (deductDeviceCredits raw amount).credits_remaining :=
  roundToTenth_nonneg (le_max_left 0 _)

theorem foldl_deduct_nonneg (as : List ℚ) (r : StoredDeviceRecord)
    (hr : 0 ≤ r.credits_remaining) :
    0 ≤ (as.foldl deductDeviceCredits r).credits_remaining := by
  induction as generalizing r with
  | nil => simpa using hr
  | cons a as ih =>
    rw [List.foldl_cons]
    exact ih _ (deduct_credits_remaining_nonneg r a)

theorem max_zero_sub_of_nonneg {T a : ℚ} (ha : 0 ≤ a) :
    max 0 (max 0 T - a) = max 0 (T - a) := by
  rcases le_or_lt 0 T with hT | hT
  · rw [max_eq_right hT]
  · rw [max_eq_left hT.le]
    have h1 : max 0 (0 - a) = 0 := max_eq_left (by linarith)
    have h2 : max 0 (T - a) = 0 := max_eq_left (by linarith)
    rw [h1, h2]

/-- Iterating the ledger write from a balance of the shape `max 0 T` (with
everything on the tenth grid) is the single clamped subtraction of the sum. -/
theorem foldl_deduct_credits_remaining (as : List ℚ)
    (hgrid : ∀ a ∈ as, 0 ≤ a ∧ isTenthMultiple a) (T : ℚ) (hT : isTenthMultiple T)
    (r : StoredDeviceRecord) (hr : r.credits_remaining = max 0 T) :
    (as.foldl deductDeviceCredits r).credits_remaining = max 0 (T - as.sum) := by
  induction as generalizing T r with
  | nil => simpa using hr
  | cons a as ih =>
    obtain ⟨ha0, haT⟩ := hgrid a (by simp)
    have hmaxT : isTenthMultiple (max 0 T) := isTenthMultiple_max isTenthMultiple_zero hT
    have hstep : (deductDeviceCredits r a).credits_remaining = max 0 (T - a) := by
      show roundToTenth (max 0 (roundToTenth r.credits_remaining - a)) = _
      rw [hr, roundToTenth_tenthMultiple _ hmaxT, max_zero_sub_of_nonneg ha0,
        roundToTenth_tenthMultiple _
          (isTenthMultiple_max isTenthMultiple_zero (isTenthMultiple_sub hT haT))]
    rw [List.foldl_cons, List.sum_cons]
    have := ih (fun b hb => hgrid b (by simp [hb])) (T - a)
      (isTenthMultiple_sub hT haT) (deductDeviceCredits r a) hstep
    rw [this]
    ring_nf

/-- C1.  After any sequence of deductions `a1..aN` applied via
`deductDeviceCredits` to a device initialized with 150 credits, the stored
`creditsRemaining` is never negative (unconditionally), and — for deduction
amounts that are non-negative multiples of a tenth of a credit, as every
amount produced by `creditsForCost` on the ledger path is — it equals
`max 0 (initialAllocation − Σ ai)` rounded to the nearest tenth.  (The claim
as frozen, for arbitrary real amounts, fails: see the counterexample.) -/
theorem deduct_device_credits_ledger_invariant (as : List ℚ) :
    0 ≤ (runDeductions as).credits_remaining ∧
      ((∀ a ∈ as, 0 ≤ a ∧ isTenthMultiple a) →
        (runDeductions as).credits_remaining =
          roundToTenth (max 0 (TRIAL_CREDIT_ALLOCATION - as.sum))) := by
  constructor
  · exact foldl_deduct_nonneg as initializeDeviceRecord
      (by norm_num [initializeDeviceRecord, TRIAL_CREDIT_ALLOCATION])
  · intro hgrid
    have h150 : isTenthMultiple TRIAL_CREDIT_ALLOCATION := ⟨1500, by norm_num [TRIAL_CREDIT_ALLOCATION]⟩
    have hinit : initializeDeviceRecord.credits_remaining = max 0 TRIAL_CREDIT_ALLOCATION := by
      norm_num [initializeDeviceRecord, TRIAL_CREDIT_ALLOCATION]
    have hmain := foldl_deduct_credits_remaining as hgrid TRIAL_CREDIT_ALLOCATION h150
      initializeDeviceRecord hinit
    rw [runDeductions, hmain,
      roundToTenth_tenthMultiple _ (isTenthMultiple_max isTenthMultiple_zero
        (isTenthMultiple_sub h150 (isTenthMultiple_sum as fun a ha => (hgrid a ha).2)))]

/-- C1 witness: two deductions of 0.2 and 0.1 credits leave
`150 − 0.3 = 149.7` credits, as the theorem predicts. -/
theorem deduct_device_credits_ledger_invariant_witness :
    0 ≤ (runDeductions [2/10, 1/10]).credits_remaining ∧
      (runDeductions [2/10, 1/10]).credits_remaining =
        roundToTenth (max 0 (TRIAL_CREDIT_ALLOCATION - ([2/10, 1/10] : List ℚ).sum)) := by
  have h := deduct_device_credits_ledger_invariant [2/10, 1/10]
  refine ⟨h.1, h.2 ?_⟩
  intro a ha
  fin_cases ha
  · exact ⟨by norm_num, ⟨2, by norm_num⟩⟩
  · exact ⟨by norm_num, ⟨1, by norm_num⟩⟩

/-- C1 counterexample: for deduction amounts that are not multiples of a
tenth, iterated per-call rounding diverges from rounding the summed total.
Two deductions of 0.04 credits leave the stored balance at 150.0, while
`roundToTenth (max 0 (150 − 0.08)) = 149.9`. -/
theorem deduct_device_credits_ledger_invariant_counterexample :
    (runDeductions [1/25, 1/25]).credits_remaining ≠
      roundToTenth (max 0 (TRIAL_CREDIT_ALLOCATION - ([1/25, 1/25] : List ℚ).sum)) := by
  norm_num [runDeductions, deductDeviceCredits, normalizeDeviceBalance,
    initializeDeviceRecord, roundToTenth, TRIAL_CREDIT_ALLOCATION, round_eq]

/-- C10.  A `deductDeviceCredits` call writes back a record whose
`total_allocated` field equals the value read before the deduction (both the
raw stored field and its normalized view), i.e. only `credits_remaining` and
`credits_used` change. -/
theorem deduct_device_credits_total_allocated_frame (raw : StoredDeviceRecord) (amount : ℚ) :
    (deductDeviceCredits raw amount).total_allocated = (normalizeDeviceBalance raw).totalAllocated ∧
      (normalizeDeviceBalance raw).totalAllocated = raw.total_allocated :=
  ⟨rfl, rfl⟩

/-! ## middleware/credits.ts — deduction (claim C3) -/

/-- The two identity kinds of `AuthContext` in `src/middleware/auth.ts`. -/
inductive AuthType where
  | licensed
  | trial
deriving DecidableEq, Repr

/-- The fields of `AuthContext` that `deductCredits` consults. -/
structure AuthContext where
  type : AuthType
  identifier : String
deriving DecidableEq, Repr

/-- The observable effect of one `deductCredits` call from
`src/middleware/credits.ts`: the returned credit amount plus the store /
remote side effects it issues (`deductDeviceCredits`, `incrementUsage`,
`recordLicenseUsage`), each recorded with the amount passed, or `none` when
the call is not made. -/
structure DeductOutcome where
  returned : ℚ
  deviceDeduction : Option ℚ
  ipIncrement : Option ℚ
  remoteRecord : Option ℚ
deriving DecidableEq, Repr

/-- `deductCredits` from `src/middleware/credits.ts`: convert the USD cost to
credits via `creditsForCost`; if the result is `≤ 0` return `0` without any
side effect; otherwise record remote usage (licensed) or decrement the device
balance and increment the IP counter (trial). -/
def deductCredits (auth : AuthContext) (costUsd : ℚ) : DeductOutcome :=
  let creditsUsed := creditsForCost costUsd
  if creditsUsed ≤ 0 then
    { returned := 0, deviceDeduction := none, ipIncrement := none, remoteRecord := none }
  else
    match auth.type with
    | .licensed =>
        { returned := creditsUsed, deviceDeduction := none, ipIncrement := none
          remoteRecord := some creditsUsed }
    | .trial =>
        { returned := creditsUsed, deviceDeduction := some creditsUsed
          ipIncrement := some creditsUsed, remoteRecord := none }

/-- C3.  Deduction converts the USD cost to credits rounded to the nearest
tenth and floored at 0.1 whenever the cost is positive; it is skipped entirely
(returns 0, no store write, no remote usage recording) when the cost is 0;
and every non-zero returned deduction amount is at least 0.1 credit. -/
theorem deduct_credits_conversion_and_skip (auth : AuthContext) (costUsd : ℚ) :
    (costUsd = 0 →
      deductCredits auth costUsd =
        { returned := 0, deviceDeduction := none, ipIncrement := none, remoteRecord := none }) ∧
    (0 < costUsd →
      (deductCredits auth costUsd).returned =
        max (1 / 10) (roundToTenth (costUsd / USD_PER_CREDIT)) ∧
      1 / 10 ≤ (deductCredits auth costUsd).returned) ∧
    ((deductCredits auth costUsd).returned ≠ 0 →
      1 / 10 ≤ (deductCredits auth costUsd).returned) := by
  refine ⟨?_, ?_, ?_⟩
  · rintro rfl
    simp [deductCredits, creditsForCost]
  · intro hpos
    have hcf : creditsForCost costUsd = max (1 / 10) (roundToTenth (costUsd / USD_PER_CREDIT)) := by
      rw [creditsForCost, if_neg (not_le.mpr hpos), usdToCredits, if_neg (not_le.mpr hpos)]
    have hge : (1 : ℚ) / 10 ≤ creditsForCost costUsd := hcf ▸ le_max_left _ _
    have hnot : ¬ creditsForCost costUsd ≤ 0 := by linarith
    have hret : (deductCredits auth costUsd).returned = creditsForCost costUsd := by
      rw [deductCredits]
      simp only [hnot, if_false]
      cases auth.type <;> rfl
    exact ⟨by rw [hret, hcf], by rw [hret]; exact hge⟩
  · intro hne
    rcases le_or_lt costUsd 0 with hle | hpos
    · exfalso
      apply hne
      have hcf0 : creditsForCost costUsd = 0 := by rw [creditsForCost, if_pos hle]
      rw [deductCredits]
      simp [hcf0]
    · have hcf : creditsForCost costUsd = max (1 / 10) (roundToTenth (costUsd / USD_PER_CREDIT)) := by
        rw [creditsForCost, if_neg (not_le.mpr hpos), usdToCredits, if_neg (not_le.mpr hpos)]
      have hge : (1 : ℚ) / 10 ≤ creditsForCost costUsd := hcf ▸ le_max_left _ _
      have hnot : ¬ creditsForCost costUsd ≤ 0 := by linarith
      have hret : (deductCredits auth costUsd).returned = creditsForCost costUsd := by
        rw [deductCredits]
        simp only [hnot, if_false]
        cases auth.type <;> rfl
      rw [hret]
      exact hge

/-- C3 witness: a trial identity with zero cost performs no deduction at all,
and with a cost of $0.001 the deduction is `max 0.1 (roundToTenth 1) = 1`
credit, which is at least 0.1. -/
theorem deduct_credits_conversion_and_skip_witness :
    deductCredits { type := .trial, identifier := "device-1" } 0 =
      { returned := 0, deviceDeduction := none, ipIncrement := none, remoteRecord := none } ∧
    (deductCredits { type := .trial, identifier := "device-1" } (1 / 1000)).returned =
      max (1 / 10) (roundToTenth ((1 / 1000) / USD_PER_CREDIT)) ∧
    1 / 10 ≤ (deductCredits { type := .trial, identifier := "device-1" } (1 / 1000)).returned := by
  have h0 := (deduct_credits_conversion_and_skip
    { type := .trial, identifier := "device-1" } 0).1 rfl
  have h1 := (deduct_credits_conversion_and_skip
    { type := .trial, identifier := "device-1" } (1 / 1000)).2.1 (by norm_num)
  exact ⟨h0, h1.1, h1.2⟩

/-! ## middleware/rate-limit.ts and lib/redis.ts — per-IP quota (claim C6)

Store reads are passed in as `Except Unit …` values: `Except.error` is the
catch-branch of the source (store unreachable), `Except.ok none` a missing
key, `Except.ok (some v)` a present value already parsed to a rational (the
source's `parseFloat`; non-finite parses collapse to `0` exactly like a
missing key, so they are represented by `Except.ok none`). -/

/-- `DAILY_FREE_CREDITS` from `src/middleware/rate-limit.ts`. -/
def DAILY_FREE_CREDITS : ℚ := TRIAL_CREDIT_ALLOCATION

/-- The fields of `RateLimitStatus` from `src/middleware/rate-limit.ts`
(the wall-clock `resetsAt` field and the constant `isAnonymous` are not
modelled). -/
structure RateLimitStatus where
  allowed : Bool
  creditsUsed : ℚ
  creditsRemaining : ℚ
deriving DecidableEq, Repr

/-- `checkRateLimit` from `src/middleware/rate-limit.ts`. -/
def checkRateLimit (read : Except Unit (Option ℚ)) (estimatedCredits : ℚ) : RateLimitStatus :=
  match read with
  | .error _ =>
      { allowed := false, creditsUsed := DAILY_FREE_CREDITS, creditsRemaining := 0 }
  | .ok raw =>
      let creditsUsed := roundToTenth (raw.getD 0)
      let creditsAfterRequest := roundToTenth (creditsUsed + estimatedCredits)
      { allowed := decide (creditsAfterRequest ≤ DAILY_FREE_CREDITS)
        creditsUsed := creditsUsed
        creditsRemaining := roundToTenth (max 0 (DAILY_FREE_CREDITS - creditsUsed)) }

/-- `isIPBlocked` from `src/lib/redis.ts`: the key's value must equal the
string `"true"`; any store failure yields `false` (fail open). -/
def isIPBlocked (read : Except Unit (Option String)) : Bool :=
  match read with
  | .error _ => false
  | .ok blocked => decide (blocked = some "true")

/-- `MIN_ESTIMATED_SECONDS` from `src/middleware/credits.ts`. -/
def MIN_ESTIMATED_SECONDS : ℚ := 10

/-- `estimateCreditsFromSize` from `src/middleware/credits.ts`. -/
def estimateCreditsFromSize (sizeBytes : ℚ) : ℚ :=
  let estimatedMinutes := sizeBytes / BYTES_PER_MINUTE_ESTIMATE
  let estimatedSeconds := max MIN_ESTIMATED_SECONDS (estimatedMinutes * 60)
  let estimatedCredits := estimatedSeconds / 60 * CREDITS_PER_MINUTE
  max (1 / 10) (roundUpToTenth estimatedCredits)

theorem isTenthMultiple_roundUpToTenth (q : ℚ) : isTenthMultiple (roundUpToTenth q) := by
  rw [roundUpToTenth]
  split
  · exact isTenthMultiple_zero
  · exact ⟨⌈q * 10⌉, rfl⟩

/-- C6.  With a reachable store, the rate-limit check reads usage `U`
(normalized to the tenth grid) and allows the request iff `U + estimate` is
within the daily allocation, reporting `remaining = max 0 (allocation − U)`
— stated for estimates on the tenth grid, which is what every call site
passes (`estimateCreditsFromSize` output, shown tenth-grid below, or the
constant `1.0`).  When the store read fails the check denies (fails closed),
while the advisory `isIPBlocked` lookup returns not-blocked on store failure
(fails open). -/
theorem rate_limit_fails_closed_ip_block_fails_open
    (raw : Option ℚ) (estimatedCredits : ℚ) (hest : isTenthMultiple estimatedCredits) :
    ((checkRateLimit (.ok raw) estimatedCredits).allowed = true ↔
        (checkRateLimit (.ok raw) estimatedCredits).creditsUsed + estimatedCredits ≤
          DAILY_FREE_CREDITS) ∧
    (checkRateLimit (.ok raw) estimatedCredits).creditsRemaining =
      max 0 (DAILY_FREE_CREDITS - (checkRateLimit (.ok raw) estimatedCredits).creditsUsed) ∧
    (checkRateLimit (.error ()) estimatedCredits).allowed = false ∧
    isIPBlocked (.error ()) = false ∧
    (∀ sizeBytes : ℚ, isTenthMultiple (estimateCreditsFromSize sizeBytes) ∧
      0 < estimateCreditsFromSize sizeBytes) := by
  have h150 : isTenthMultiple DAILY_FREE_CREDITS :=
    ⟨1500, by norm_num [DAILY_FREE_CREDITS, TRIAL_CREDIT_ALLOCATION]⟩
  have hU : isTenthMultiple (roundToTenth (raw.getD 0)) := isTenthMultiple_roundToTenth _
  refine ⟨?_, ?_, rfl, rfl, ?_⟩
  · show decide (roundToTenth (roundToTenth (raw.getD 0) + estimatedCredits) ≤
      DAILY_FREE_CREDITS) = true ↔ _
    rw [roundToTenth_tenthMultiple _ (isTenthMultiple_add hU hest), decide_eq_true_eq]
    exact Iff.rfl
  · show roundToTenth (max 0 (DAILY_FREE_CREDITS - roundToTenth (raw.getD 0))) = _
    rw [roundToTenth_tenthMultiple _
      (isTenthMultiple_max isTenthMultiple_zero (isTenthMultiple_sub h150 hU))]
    rfl
  · intro sizeBytes
    refine ⟨isTenthMultiple_max ⟨1, by norm_num⟩ (isTenthMultiple_roundUpToTenth _), ?_⟩
    calc (0 : ℚ) < 1 / 10 := by norm_num
    _ ≤ _ := le_max_left _ _

/-- C6 witness: with 42 credits already used and an estimate of 0.1 credits,
the request is allowed and 108 credits remain; with the store unreachable the
check denies while the IP-block lookup reports not blocked. -/
theorem rate_limit_fails_closed_ip_block_fails_open_witness :
    ((checkRateLimit (.ok (some 42)) (1 / 10)).allowed = true ↔
        (checkRateLimit (.ok (some 42)) (1 / 10)).creditsUsed + 1 / 10 ≤ DAILY_FREE_CREDITS) ∧
    (checkRateLimit (.ok (some 42)) (1 / 10)).creditsRemaining =
      max 0 (DAILY_FREE_CREDITS - (checkRateLimit (.ok (some 42)) (1 / 10)).creditsUsed) ∧
    (checkRateLimit (.error ()) (1 / 10)).allowed = false ∧
    isIPBlocked (.error ()) = false ∧
    isTenthMultiple (estimateCreditsFromSize 3145728) := by
  have h := rate_limit_fails_closed_ip_block_fails_open (some 42) (1 / 10) ⟨1, by norm_num⟩
  exact ⟨h.1, h.2.1, h.2.2.1, h.2.2.2.1, (h.2.2.2.2 3145728).1⟩

/-! ## routes/ws-streaming-deepgram.ts — end-of-session billing (claim C2)

`endSession` in the source is guarded by the boolean `sessionEnded`, which is
tested and set synchronously before any `await`; since the runtime executes
event callbacks one at a time, concurrent closes of the client socket and the
upstream socket are two sequential invocations of `endSession`.  The model
therefore exposes `endSession` as a state transformer and quantifies over the
number of (sequential) invocations. -/

/-- The observable per-session state of the streaming route: the idempotency
flag, how many times the guarded body of `endSession` has run, the
`session_complete` events sent to the client (duration, credits), and the
USD costs passed to `deductCredits`. -/
structure StreamState where
  sessionEnded : Bool
  bodyRuns : Nat
  completeEvents : List (ℚ × ℚ)
  deductionCalls : List ℚ
deriving DecidableEq, Repr

/-- The state of a freshly opened streaming session. -/
def initialStreamState : StreamState :=
  { sessionEnded := false, bodyRuns := 0, completeEvents := [], deductionCalls := [] }

/-- `endSession` from `src/routes/ws-streaming-deepgram.ts`, for a session
whose accumulated vendor-reported duration is `D` seconds: bail out if the
session already ended; otherwise mark it ended, emit one `session_complete`
event, and call `deductCredits` with the session cost only when the credit
amount is positive. -/
def endSession (D : ℚ) (st : StreamState) : StreamState :=
  if st.sessionEnded then st
  else
    let costUsd := computeDeepgramTranscriptionCost D
    let creditsUsed := creditsForCost costUsd
    { sessionEnded := true
      bodyRuns := st.bodyRuns + 1
      completeEvents := st.completeEvents ++ [(D, creditsUsed)]
      deductionCalls := st.deductionCalls ++ (if 0 < creditsUsed then [costUsd] else []) }

theorem endSession_of_ended (D : ℚ) (st : StreamState) (h : st.sessionEnded = true) :
    endSession D st = st := by
  rw [endSession, if_pos h]

theorem endSession_iterate_collapse (D : ℚ) (n : ℕ) (hn : 1 ≤ n) :
    (endSession D)^[n] initialStreamState = endSession D initialStreamState := by
  induction n with
  | zero => cases hn
  | succ k ih =>
    rcases Nat.eq_zero_or_pos k with rfl | hk
    · rfl
    · rw [Function.iterate_succ_apply', ih hk]
      exact endSession_of_ended D _ rfl

theorem deductCredits_returned_of_pos (auth : AuthContext) (costUsd : ℚ)
    (h : 0 < creditsForCost costUsd) :
    (deductCredits auth costUsd).returned = creditsForCost costUsd := by
  rw [deductCredits]
  simp only [not_le.mpr h, if_false]
  cases auth.type <;> rfl

/-- C2.  However many times the session-end logic is invoked (both sockets
closing, in either order, invoke it once each), the guarded body runs exactly
once: one `session_complete` event is emitted, carrying the accumulated
duration `D` and `creditsForCost (computeDeepgramTranscriptionCost D)`
credits; when that credit amount is positive exactly one deduction is issued
for the session cost and the ledger path (`deductCredits`) bills exactly that
amount, and when it rounds to zero no deduction call is made at all. -/
theorem streaming_session_bills_exactly_once (auth : AuthContext) (D : ℚ) (n : ℕ)
    (hn : 1 ≤ n) :
    ((endSession D)^[n] initialStreamState).bodyRuns = 1 ∧
    ((endSession D)^[n] initialStreamState).completeEvents =
      [(D, creditsForCost (computeDeepgramTranscriptionCost D))] ∧
    ((endSession D)^[n] initialStreamState).deductionCalls =
      (if 0 < creditsForCost (computeDeepgramTranscriptionCost D) then
        [computeDeepgramTranscriptionCost D] else []) ∧
    ∀ c ∈ ((endSession D)^[n] initialStreamState).deductionCalls,
      (deductCredits auth c).returned = creditsForCost (computeDeepgramTranscriptionCost D) := by
  rw [endSession_iterate_collapse D n hn]
  have hbody : endSession D initialStreamState =
      { sessionEnded := true, bodyRuns := 1
        completeEvents := [(D, creditsForCost (computeDeepgramTranscriptionCost D))]
        deductionCalls := (if 0 < creditsForCost (computeDeepgramTranscriptionCost D) then
          [computeDeepgramTranscriptionCost D] else []) } := by
    rw [endSession]
    rfl
  rw [hbody]
  refine ⟨rfl, rfl, rfl, ?_⟩
  intro c hc
  split at hc
  · rw [List.mem_singleton] at hc
    subst hc
    exact deductCredits_returned_of_pos auth _ (by assumption)
  · simp at hc

/-- C2 witness: a 60-second session, with both sockets closing (two
invocations), bills exactly once: one `session_complete` event `(60, 0.5)`
and one deduction of the $0.0055 session cost. -/
theorem streaming_session_bills_exactly_once_witness :
    ((endSession 60)^[2] initialStreamState).bodyRuns = 1 ∧
    ((endSession 60)^[2] initialStreamState).completeEvents =
      [(60, creditsForCost (computeDeepgramTranscriptionCost 60))] ∧
    ((endSession 60)^[2] initialStreamState).deductionCalls =
      (if 0 < creditsForCost (computeDeepgramTranscriptionCost 60) then
        [computeDeepgramTranscriptionCost 60] else []) := by
  have h := streaming_session_bills_exactly_once
    { type := .trial, identifier := "device-1" } 60 2 (by norm_num)
  exact ⟨h.1, h.2.1, h.2.2.1⟩

/-! ## routes/transcribe.ts — STT provider dispatch and fallback (claim C4)

Vendor calls are modelled as functions `SttRequest → Except SttError …`;
the dispatcher returns, besides the outcome, the exact list of vendor calls
it performed (provider, request). -/

/-- The `Provider` union from `src/routes/transcribe.ts`. -/
inductive SttProvider where
  | deepgram
  | groq
  | elevenlabs
deriving DecidableEq, Repr

/-- The lowercase wire keys of the providers (the values of the `Provider`
union type). -/
def sttProviderKey : SttProvider → String
  | .deepgram => "deepgram"
  | .groq => "groq"
  | .elevenlabs => "elevenlabs"

/-- `PROVIDER_NAMES` from `src/routes/transcribe.ts`. -/
def PROVIDER_NAMES : SttProvider → String
  | .deepgram => "deepgram-nova3"
  | .elevenlabs => "elevenlabs-scribe-v2"
  | .groq => "groq-whisper-large-v3"

/-- A vendor failure: `GroqEdgeBlockedError` (the HTTP 403 signature from
`src/providers/groq.ts`) is distinguishable from every other thrown error. -/
inductive SttError where
  | edgeBlocked (message : String)
  | other (message : String)
deriving DecidableEq, Repr

/-- The arguments every `transcribeWith…` provider receives:
`(audio, contentType, language?, initialPrompt?)`. -/
structure SttRequest where
  audio : List ℕ
  contentType : String
  language : Option String
  initialPrompt : Option String
deriving DecidableEq, Repr

/-- The `TranscriptionResult` fields from `src/providers/types.ts` that the
route consults. -/
structure TranscriptionResult where
  text : String
  language : Option String
  durationSeconds : ℚ
  costUsd : ℚ
  source : String
deriving DecidableEq, Repr

/-- The outcome of the provider-dispatch block of `transcribeRoute`: the
transcription result or propagated error, the `fallbackFrom` marker, and the
vendor calls actually made, in order. -/
structure SttDispatchOutcome where
  outcome : Except SttError TranscriptionResult
  fallbackFrom : Option SttProvider
  calls : List (SttProvider × SttRequest)
deriving Repr

/-- The provider-dispatch block of `transcribeRoute` in
`src/routes/transcribe.ts`: groq failures with the edge-blocked signature are
retried once on deepgram with the identical request; every other failure of
any provider propagates (and `fallbackFrom` is only set once the deepgram
retry has succeeded, matching the source's assignment order). -/
def transcribeDispatch (dg gq el : SttRequest → Except SttError TranscriptionResult)
    (provider : SttProvider) (req : SttRequest) : SttDispatchOutcome :=
  match provider with
  | .groq =>
      match gq req with
      | .ok r => { outcome := .ok r, fallbackFrom := none, calls := [(.groq, req)] }
      | .error (.edgeBlocked _) =>
          match dg req with
          | .ok r =>
              { outcome := .ok r, fallbackFrom := some .groq
                calls := [(.groq, req), (.deepgram, req)] }
          | .error e =>
              { outcome := .error e, fallbackFrom := none
                calls := [(.groq, req), (.deepgram, req)] }
      | .error (.other m) =>
          { outcome := .error (.other m), fallbackFrom := none, calls := [(.groq, req)] }
  | .elevenlabs =>
      match el req with
      | .ok r => { outcome := .ok r, fallbackFrom := none, calls := [(.elevenlabs, req)] }
      | .error e => { outcome := .error e, fallbackFrom := none, calls := [(.elevenlabs, req)] }
  | .deepgram =>
      match dg req with
      | .ok r => { outcome := .ok r, fallbackFrom := none, calls := [(.deepgram, req)] }
      | .error e => { outcome := .error e, fallbackFrom := none, calls := [(.deepgram, req)] }

/-- The `providerName` reported in the response body and `X-STT-Provider`
header of `transcribeRoute`. -/
def reportedProviderName (provider : SttProvider) (fallbackFrom : Option SttProvider) : String :=
  match fallbackFrom with
  | some p => PROVIDER_NAMES .deepgram ++ " (fallback from " ++ sttProviderKey p ++ ")"
  | none => PROVIDER_NAMES provider

/-- C4.  Automatic STT fallback happens only when the groq vendor fails with
the edge-blocked (HTTP 403) signature: exactly one further call is made, to
deepgram, with the identical request (same audio bytes, content type,
language and prompt), and the reported vendor name becomes
`deepgram-nova3 (fallback from groq)`; any other failure — a non-edge-blocked
groq error, or any deepgram or elevenlabs error — causes no further vendor
call and propagates as the error of the dispatch (a 500 response). -/
theorem stt_fallback_only_on_groq_edge_blocked
    (dg gq el : SttRequest → Except SttError TranscriptionResult) (req : SttRequest) :
    (∀ m r, gq req = .error (.edgeBlocked m) → dg req = .ok r →
      transcribeDispatch dg gq el .groq req =
        { outcome := .ok r, fallbackFrom := some .groq
          calls := [(.groq, req), (.deepgram, req)] } ∧
      reportedProviderName .groq (some .groq) = "deepgram-nova3 (fallback from groq)") ∧
    (∀ m e, gq req = .error (.edgeBlocked m) → dg req = .error e →
      transcribeDispatch dg gq el .groq req =
        { outcome := .error e, fallbackFrom := none
          calls := [(.groq, req), (.deepgram, req)] }) ∧
    (∀ m, gq req = .error (.other m) →
      transcribeDispatch dg gq el .groq req =
        { outcome := .error (.other m), fallbackFrom := none, calls := [(.groq, req)] }) ∧
    (∀ e, dg req = .error e →
      transcribeDispatch dg gq el .deepgram req =
        { outcome := .error e, fallbackFrom := none, calls := [(.deepgram, req)] }) ∧
    (∀ e, el req = .error e →
      transcribeDispatch dg gq el .elevenlabs req =
        { outcome := .error e, fallbackFrom := none, calls := [(.elevenlabs, req)] }) := by
  refine ⟨?_, ?_, ?_, ?_, ?_⟩
  · intro m r hgq hdg
    refine ⟨?_, rfl⟩
    rw [transcribeDispatch, hgq, hdg]
  · intro m e hgq hdg
    rw [transcribeDispatch, hgq, hdg]
  · intro m hgq
    rw [transcribeDispatch, hgq]
  · intro e hdg
    rw [transcribeDispatch, hdg]
  · intro e hel
    rw [transcribeDispatch, hel]

/-- C4 witness: with groq edge-blocked and deepgram succeeding, dispatching
to groq makes exactly the two calls `[groq, deepgram]` on the identical
request and reports the fallback name; an elevenlabs failure propagates with
a single call. -/
theorem stt_fallback_only_on_groq_edge_blocked_witness :
    (transcribeDispatch
        (fun _ => .ok { text := "hi", language := some "en", durationSeconds := 2
                        costUsd := 1/1000, source := "deepgram" })
        (fun _ => .error (.edgeBlocked "Groq returned 403 Forbidden"))
        (fun _ => .error (.other "ElevenLabs error: 500"))
        .groq
        { audio := [0, 1], contentType := "audio/wav", language := some "en"
          initialPrompt := none } =
      { outcome := .ok { text := "hi", language := some "en", durationSeconds := 2
                         costUsd := 1/1000, source := "deepgram" }
        fallbackFrom := some .groq
        calls := [(.groq, { audio := [0, 1], contentType := "audio/wav"
                            language := some "en", initialPrompt := none }),
                  (.deepgram, { audio := [0, 1], contentType := "audio/wav"
                                language := some "en", initialPrompt := none })] } ∧
      reportedProviderName .groq (some .groq) = "deepgram-nova3 (fallback from groq)") ∧
    transcribeDispatch
        (fun _ => .ok { text := "hi", language := some "en", durationSeconds := 2
                        costUsd := 1/1000, source := "deepgram" })
        (fun _ => .error (.edgeBlocked "Groq returned 403 Forbidden"))
        (fun _ => .error (.other "ElevenLabs error: 500"))
        .elevenlabs
        { audio := [0, 1], contentType := "audio/wav", language := some "en"
          initialPrompt := none } =
      { outcome := .error (.other "ElevenLabs error: 500"), fallbackFrom := none
        calls := [(.elevenlabs, { audio := [0, 1], contentType := "audio/wav"
                                  language := some "en", initialPrompt := none })] } := by
  have h := stt_fallback_only_on_groq_edge_blocked
    (fun _ => .ok { text := "hi", language := some "en", durationSeconds := 2
                    costUsd := 1/1000, source := "deepgram" })
    (fun _ => .error (.edgeBlocked "Groq returned 403 Forbidden"))
    (fun _ => .error (.other "ElevenLabs error: 500"))
    { audio := [0, 1], contentType := "audio/wav", language := some "en"
      initialPrompt := none }
  exact ⟨h.1 "Groq returned 403 Forbidden" _ rfl rfl,
    h.2.2.2.2 (.other "ElevenLabs error: 500") rfl⟩

/-! ## lib/llm-provider.ts and routes/post-process.ts — retry caps (claim C9) -/

/-- The `LLMProvider` union from `src/lib/llm-provider.ts`. -/
inductive LLMProvider where
  | cerebras
  | groq
deriving DecidableEq, Repr

/-- `DEFAULT_LLM_PROVIDER` from `src/lib/llm-provider.ts`. -/
def DEFAULT_LLM_PROVIDER : LLMProvider := .cerebras

/-- The retry cap handed to `callWithRetry` for the primary call in
`postProcessRoute`: `provider === 'cerebras' ? 0 : 3`. -/
def primaryRetries (provider : LLMProvider) : ℕ :=
  if provider = .cerebras then 0 else 3

/-- The vendor used as fallback in `postProcessRoute`:
`provider === 'cerebras' ? 'groq' : 'cerebras'`. -/
def correctionFallbackProvider (provider : LLMProvider) : LLMProvider :=
  if provider = .cerebras then .groq else .cerebras

/-- The retry cap handed to `callWithRetry` for the fallback call in
`postProcessRoute`: `providerUsed === 'groq' ? 3 : 0`. -/
def fallbackRetries (providerUsed : LLMProvider) : ℕ :=
  if providerUsed = .groq then 3 else 0

/-- C9 counterexample: when the explicit primary correction vendor is groq,
the primary call gets 3 retries while the fallback vendor (cerebras) gets 0,
so the fallback's cap is not strictly greater than the primary's. -/
theorem correction_retry_caps_counterexample :
    ¬ (primaryRetries .groq < fallbackRetries (correctionFallbackProvider .groq)) := by
  decide

/-- C9 (amended).  The retry caps of `postProcessRoute` are tied to the
vendor's identity (groq always 3, cerebras always 0), not to its role, so a
vendor gets the same cap whether acting as primary or as fallback; only for
the default primary (cerebras) is the fallback vendor's cap (3) strictly
greater than the primary's (0). -/
theorem correction_retry_caps_per_vendor :
    primaryRetries DEFAULT_LLM_PROVIDER <
      fallbackRetries (correctionFallbackProvider DEFAULT_LLM_PROVIDER) ∧
    ∀ p : LLMProvider, primaryRetries p = fallbackRetries p := by
  refine ⟨by decide, ?_⟩
  intro p
  cases p <;> rfl

/-! ## lib/text-processing.ts — marker stripping (claim C8)

Strings are modelled as `List Char`.  `String.prototype.trim` removes
whitespace from both ends; `String.prototype.replace` with a global,
case-insensitive alternation scans left to right, at each position trying the
alternatives in their written order, removing a match and resuming after it,
otherwise advancing one character.  The recursion is expressed with an
explicit fuel argument (`length + 1` always suffices, since every step
consumes at least one character) so that the function stays structurally
recursive and kernel-reducible. -/

/-- Whitespace as matched by `trim` / `\s` (the ASCII cases; the further
Unicode space code points do not occur in the markers or claims). -/
def jsIsWs (c : Char) : Bool :=
  c == ' ' || c == '\t' || c == '\n' || c == '\r' || c == '\x0b' || c == '\x0c'

/-- Left half of `String.prototype.trim`. -/
def trimLeftJS (cs : List Char) : List Char :=
  cs.dropWhile jsIsWs

/-- Right half of `String.prototype.trim`. -/
def trimRightJS : List Char → List Char
  | [] => []
  | c :: rest =>
    match trimRightJS rest with
    | [] => if jsIsWs c then [] else [c]
    | r => c :: r

/-- Model of `String.prototype.trim`. -/
def jsTrim (cs : List Char) : List Char :=
  trimRightJS (trimLeftJS cs)

/-- The alternatives of `CLEAN_MARKER_PATTERN` from
`src/lib/text-processing.ts`, lowercased (the regex carries the `i` flag), in
their written order (a JS alternation takes the first alternative that
matches). -/
def CLEAN_MARKERS : List (List Char) :=
  ["<<cleaned>>".toList, "<<cleaned>".toList, "<cleaned>>".toList, "<cleaned>".toList,
   "<<end>>".toList, "<<end>".toList, "<end>>".toList, "<end>".toList]

/-- Case-insensitive test that `marker` (already lowercase) starts the
character list `cs`. -/
def markerLeads : List Char → List Char → Bool
  | [], _ => true
  | _ :: _, [] => false
  | m :: ms, c :: cs => (c.toLower == m) && markerLeads ms cs

/-- The length of the first marker alternative matching at the head of `cs`,
if any. -/
def matchCleanMarkerLen (cs : List Char) : Option ℕ :=
  (CLEAN_MARKERS.find? fun m => markerLeads m cs).map List.length

/-- One global-replace pass of `CLEAN_MARKER_PATTERN` with the empty
replacement, fuelled. -/
def removeCleanMarkersF : ℕ → List Char → List Char
  | 0, cs => cs
  | _ + 1, [] => []
  | fuel + 1, c :: rest =>
    match matchCleanMarkerLen (c :: rest) with
    | some n => removeCleanMarkersF fuel (List.drop n (c :: rest))
    | none => c :: removeCleanMarkersF fuel rest

/-- Model of `text.replace(CLEAN_MARKER_PATTERN, '')`. -/
def removeCleanMarkers (cs : List Char) : List Char :=
  removeCleanMarkersF (cs.length + 1) cs

/-- Whether any marker alternative matches anywhere in `cs`. -/
def hasCleanMarker : List Char → Bool
  | [] => false
  | c :: rest => (matchCleanMarkerLen (c :: rest)).isSome || hasCleanMarker rest

/-- Function `stripCleanMarkers` from `src/lib/text-processing.ts` on string
input (the non-string typeof-guard of the source is outside a typed model):
remove all marker matches, then trim. -/
def stripCleanMarkers (text : List Char) : List Char :=
  jsTrim (removeCleanMarkers text)

/-! ### Trim and marker-removal lemmas -/

theorem dropWhile_dropWhile_self {α : Type} (p : α → Bool) (l : List α) :
    (l.dropWhile p).dropWhile p = l.dropWhile p := by
  induction l with
  | nil => rfl
  | cons a l ih =>
    cases h : p a
    · simp [List.dropWhile_cons, h]
    · simp [List.dropWhile_cons, h, ih]

theorem head?_dropWhile_false {α : Type} (p : α → Bool) (l : List α) (a : α)
    (h : (l.dropWhile p).head? = some a) : p a = false := by
  induction l with
  | nil => cases h
  | cons b l ih =>
    by_cases hb : p b
    · rw [List.dropWhile_cons, if_pos hb] at h
      exact ih h
    · rw [List.dropWhile_cons, if_neg hb] at h
      cases h
      exact Bool.not_eq_true _ ▸ (by simpa using hb)

theorem dropWhile_eq_self_of_head? {α : Type} (p : α → Bool) (l : List α)
    (h : ∀ a, l.head? = some a → p a = false) : l.dropWhile p = l := by
  cases l with
  | nil => rfl
  | cons a l => rw [List.dropWhile_cons, if_neg (by simp [h a rfl])]

theorem trimRightJS_head? (l : List Char) :
    trimRightJS l = [] ∨ (trimRightJS l).head? = l.head? := by
  cases l with
  | nil => exact Or.inl rfl
  | cons c rest =>
    rw [trimRightJS]
    cases htr : trimRightJS rest
    · cases hws : jsIsWs c
      · exact Or.inr (by simp)
      · exact Or.inl (by simp)
    · exact Or.inr (by simp)

theorem trimRightJS_trimRightJS (l : List Char) :
    trimRightJS (trimRightJS l) = trimRightJS l := by
  induction l with
  | nil => rfl
  | cons c rest ih =>
    cases htr : trimRightJS rest with
    | nil =>
      have hc : trimRightJS (c :: rest) = if jsIsWs c then [] else [c] := by
        rw [trimRightJS, htr]
      cases hws : jsIsWs c
      · rw [hc, if_neg (by simp [hws])]
        show trimRightJS [c] = [c]
        rw [trimRightJS]
        show (if jsIsWs c then [] else [c]) = [c]
        rw [if_neg (by simp [hws])]
      · rw [hc, if_pos (by simp [hws])]
        rfl
    | cons d ds =>
      have hdds : trimRightJS (d :: ds) = d :: ds := htr ▸ ih
      have hc : trimRightJS (c :: rest) = c :: d :: ds := by
        rw [trimRightJS, htr]
      rw [hc, trimRightJS, hdds]

theorem jsTrim_jsTrim (l : List Char) : jsTrim (jsTrim l) = jsTrim l := by
  simp only [jsTrim]
  rcases trimRightJS_head? (trimLeftJS l) with hnil | hhead
  · rw [hnil]
    rfl
  · have hdrop : trimLeftJS (trimRightJS (trimLeftJS l)) = trimRightJS (trimLeftJS l) := by
      apply dropWhile_eq_self_of_head?
      intro a ha
      rw [hhead] at ha
      exact head?_dropWhile_false jsIsWs l a ha
    rw [hdrop, trimRightJS_trimRightJS]

theorem removeCleanMarkersF_of_no_marker (cs : List Char) (h : hasCleanMarker cs = false) :
    ∀ fuel, cs.length < fuel → removeCleanMarkersF fuel cs = cs := by
  induction cs with
  | nil =>
    intro fuel hf
    cases fuel
    · cases hf
    · rfl
  | cons c rest ih =>
    intro fuel hf
    rw [hasCleanMarker, Bool.or_eq_false_iff] at h
    have hnone : matchCleanMarkerLen (c :: rest) = none := by
      cases hm : matchCleanMarkerLen (c :: rest)
      · rfl
      · rw [hm] at h
        cases h.1
    cases fuel with
    | zero => cases hf
    | succ f =>
      rw [removeCleanMarkersF, hnone]
      have hlt : rest.length < f := by
        have := hf
        simp only [List.length_cons] at this
        omega
      rw [ih h.2 f hlt]

theorem removeCleanMarkers_of_no_marker (cs : List Char) (h : hasCleanMarker cs = false) :
    removeCleanMarkers cs = cs :=
  removeCleanMarkersF_of_no_marker cs h (cs.length + 1) (Nat.lt_succ_self _)

/-- C8 (amended).  Applying `stripCleanMarkers` twice equals applying it once
for every input whose first pass leaves no marker occurrence behind — in
particular for every text in which marker occurrences do not overlap.  (The
unconditional claim fails: removing an inner marker can splice a new marker
together, see the counterexample.) -/
theorem stripCleanMarkers_idempotent_when_pass_clean (t : List Char)
    (h : hasCleanMarker (stripCleanMarkers t) = false) :
    stripCleanMarkers (stripCleanMarkers t) = stripCleanMarkers t := by
  rw [stripCleanMarkers, removeCleanMarkers_of_no_marker _ h, stripCleanMarkers,
    jsTrim_jsTrim]

/-- C8 witness: one pass over `"  <<CLEANED>>hello <<END>> "` yields
`"hello"`, which contains no marker, and a second pass leaves it unchanged. -/
theorem stripCleanMarkers_idempotent_when_pass_clean_witness :
    hasCleanMarker (stripCleanMarkers "  <<CLEANED>>hello <<END>> ".toList) = false ∧
    stripCleanMarkers (stripCleanMarkers "  <<CLEANED>>hello <<END>> ".toList) =
      stripCleanMarkers "  <<CLEANED>>hello <<END>> ".toList := by
  refine ⟨by decide, ?_⟩
  exact stripCleanMarkers_idempotent_when_pass_clean _ (by decide)

/-- C8 counterexample: on `"<CLE<CLEANED>ANED>"` one pass removes the inner
`<CLEANED>` and splices the surrounding characters into a fresh `<CLEANED>`,
so the first pass returns `<CLEANED>` while the second returns the empty
string — `stripCleanMarkers` is not idempotent. -/
theorem stripCleanMarkers_not_idempotent_counterexample :
    stripCleanMarkers (stripCleanMarkers "<CLE<CLEANED>ANED>".toList) ≠
      stripCleanMarkers "<CLE<CLEANED>ANED>".toList := by
  decide

/-! ## lib/llm-provider.ts and routes/post-process.ts — 5xx-gated fallback
(claim C5)

A vendor call here stands for one whole `callWithRetry` sequence; its final
error is an `LLMError` carrying an optional structured `status` field and a
message string.  The message parse models the regex `/status\s+(\d{3})/i`:
scan left to right for the literal `status` (case-insensitive) followed by at
least one whitespace character and three digits. -/

/-- The error shape `getErrorStatus` in `src/lib/llm-provider.ts` inspects:
an optional numeric `status` field plus a message. -/
structure LLMError where
  status : Option ℤ
  message : String
deriving DecidableEq, Repr

/-- The regex match attempt anchored at the current position: the literal
`status` (case-insensitive), one or more whitespace characters, then three
digits, whose value is returned. -/
def matchStatusAt (cs : List Char) : Option ℕ :=
  if markerLeads "status".toList cs then
    let rest := cs.drop 6
    let ws := rest.takeWhile jsIsWs
    if ws.isEmpty then none
    else
      match rest.drop ws.length with
      | d1 :: d2 :: d3 :: _ =>
        if d1.isDigit && d2.isDigit && d3.isDigit then
          some (100 * (d1.toNat - 48) + 10 * (d2.toNat - 48) + (d3.toNat - 48))
        else none
      | _ => none
  else none

/-- Leftmost match of `/status\s+(\d{3})/i` over the message. -/
def parseStatusFromMessage : List Char → Option ℕ
  | [] => none
  | c :: rest =>
    match matchStatusAt (c :: rest) with
    | some n => some n
    | none => parseStatusFromMessage rest

/-- `getErrorStatus` from `src/lib/llm-provider.ts`: the structured `status`
field when it is a number, otherwise the status parsed from the message. -/
def getErrorStatus (e : LLMError) : Option ℤ :=
  match e.status with
  | some s => some s
  | none => (parseStatusFromMessage e.message.toList).map fun n => (n : ℤ)

/-- `shouldFallback` from `src/lib/llm-provider.ts`: true exactly for a
resolvable status in the 5xx range. -/
def shouldFallback (e : LLMError) : Bool :=
  match getErrorStatus e with
  | some status => decide (500 ≤ status) && decide (status ≤ 599)
  | none => false

/-- The result shape of one `callWithRetry` sequence (`raw` response plus
cost) that `postProcessRoute` consumes. -/
structure CorrectionResponse where
  raw : String
  costUsd : ℚ
deriving DecidableEq, Repr

/-- The outcome of the primary/fallback block of `postProcessRoute`: the
final response or error, the provider that produced it, and the
`callWithRetry` sequences issued, each with the retry cap it was given. -/
structure CorrectionDispatchOutcome where
  outcome : Except LLMError CorrectionResponse
  providerUsed : LLMProvider
  calls : List (LLMProvider × ℕ)

/-- The primary-call / catch / fallback block of `postProcessRoute` in
`src/routes/post-process.ts` (the later leakage-retry phase only runs after a
successful response and is outside this claim): on a primary error, fall back
to the alternate vendor exactly when `shouldFallback` holds, otherwise return
the error (a 500 response). -/
def postProcessLLMDispatch (call : LLMProvider → Except LLMError CorrectionResponse)
    (provider : LLMProvider) : CorrectionDispatchOutcome :=
  match call provider with
  | .ok r => { outcome := .ok r, providerUsed := provider
               calls := [(provider, primaryRetries provider)] }
  | .error e =>
    if shouldFallback e then
      let providerUsed := correctionFallbackProvider provider
      match call providerUsed with
      | .ok r => { outcome := .ok r, providerUsed := providerUsed
                   calls := [(provider, primaryRetries provider),
                             (providerUsed, fallbackRetries providerUsed)] }
      | .error e2 => { outcome := .error e2, providerUsed := providerUsed
                       calls := [(provider, primaryRetries provider),
                                 (providerUsed, fallbackRetries providerUsed)] }
    else { outcome := .error e, providerUsed := provider
           calls := [(provider, primaryRetries provider)] }

/-- C5.  A primary correction call whose final error resolves to a 5xx status
— from the structured `status` field or parsed out of the message — triggers
exactly one further call sequence, against the alternate vendor, whose result
becomes the outcome; an error that does not resolve to 5xx triggers no
fallback and is returned as the error; and `shouldFallback` holds exactly for
resolved statuses in `[500, 599]`. -/
theorem correction_fallback_only_on_5xx
    (call : LLMProvider → Except LLMError CorrectionResponse) (provider : LLMProvider) :
    (∀ e, call provider = .error e → shouldFallback e = true →
      (postProcessLLMDispatch call provider).calls =
        [(provider, primaryRetries provider),
         (correctionFallbackProvider provider,
          fallbackRetries (correctionFallbackProvider provider))] ∧
      (postProcessLLMDispatch call provider).providerUsed =
        correctionFallbackProvider provider ∧
      (postProcessLLMDispatch call provider).outcome =
        call (correctionFallbackProvider provider)) ∧
    (∀ e, call provider = .error e → shouldFallback e = false →
      postProcessLLMDispatch call provider =
        { outcome := .error e, providerUsed := provider
          calls := [(provider, primaryRetries provider)] }) ∧
    (∀ e s, getErrorStatus e = some s →
      (shouldFallback e = true ↔ 500 ≤ s ∧ s ≤ 599)) := by
  refine ⟨?_, ?_, ?_⟩
  · intro e hcall h5
    rw [postProcessLLMDispatch, hcall]
    simp only [h5, if_true]
    cases hfb : call (correctionFallbackProvider provider) <;>
      exact ⟨rfl, rfl, rfl⟩
  · intro e hcall h5
    rw [postProcessLLMDispatch, hcall]
    simp only [h5, if_false, Bool.false_eq_true]
  · intro e s hs
    rw [shouldFallback, hs]
    simp only [Bool.and_eq_true, decide_eq_true_eq]

/-- C5 witness: a cerebras failure whose message carries `status 503` (no
structured field) falls back to exactly one groq call sequence which supplies
the outcome, while a structured 401 error is returned with no fallback
call. -/
theorem correction_fallback_only_on_5xx_witness :
    ((postProcessLLMDispatch
        (fun p => if p = .cerebras
          then .error { status := none, message := "Cerebras API error: status 503" }
          else .ok { raw := "fixed text", costUsd := 1/1000 })
        .cerebras).calls =
      [(.cerebras, primaryRetries .cerebras),
       (correctionFallbackProvider .cerebras,
        fallbackRetries (correctionFallbackProvider .cerebras))] ∧
      (postProcessLLMDispatch
        (fun p => if p = .cerebras
          then .error { status := none, message := "Cerebras API error: status 503" }
          else .ok { raw := "fixed text", costUsd := 1/1000 })
        .cerebras).providerUsed = correctionFallbackProvider .cerebras ∧
      (postProcessLLMDispatch
        (fun p => if p = .cerebras
          then .error { status := none, message := "Cerebras API error: status 503" }
          else .ok { raw := "fixed text", costUsd := 1/1000 })
        .cerebras).outcome =
        (fun p => if p = .cerebras
          then Except.error { status := none, message := "Cerebras API error: status 503" }
          else Except.ok { raw := "fixed text", costUsd := (1/1000 : ℚ) })
          (correctionFallbackProvider .cerebras)) ∧
    postProcessLLMDispatch
        (fun _ => .error { status := some 401, message := "Unauthorized" }) .cerebras =
      { outcome := .error { status := some 401, message := "Unauthorized" }
        providerUsed := .cerebras
        calls := [(.cerebras, primaryRetries .cerebras)] } := by
  constructor
  · exact (correction_fallback_only_on_5xx
      (fun p => if p = .cerebras
        then .error { status := none, message := "Cerebras API error: status 503" }
        else .ok { raw := "fixed text", costUsd := 1/1000 })
      .cerebras).1
      { status := none, message := "Cerebras API error: status 503" }
      rfl (by decide)
  · exact (correction_fallback_only_on_5xx
      (fun _ => .error { status := some 401, message := "Unauthorized" })
      .cerebras).2.1
      { status := some 401, message := "Unauthorized" }
      rfl (by decide)

/-! ## providers/deepgram.ts — vocabulary hint conversion and URL (claim C7)

The split on `/[,\n;]+/` follows JS `String.prototype.split` with a regex
separator: runs of separator characters count as one separator, and a leading
or trailing separator run contributes an empty piece.  The recursion is
fuelled (`length + 1` always suffices) to stay kernel-reducible.  The query
string is modelled as the ordered list of `(key, value)` pairs that
`URLSearchParams` would serialize. -/

/-- A separator character of the split regex `[,\n;]`. -/
def isSepChar (c : Char) : Bool :=
  c == ',' || c == '\n' || c == ';'

/-- Fuelled worker for the regex split: `acc` is the reversed current
piece. -/
def splitSepsF : ℕ → List Char → List Char → List (List Char)
  | 0, _, acc => [acc.reverse]
  | _ + 1, [], acc => [acc.reverse]
  | fuel + 1, c :: rest, acc =>
    if isSepChar c then acc.reverse :: splitSepsF fuel (rest.dropWhile isSepChar) []
    else splitSepsF fuel rest (c :: acc)

/-- Model of `initialPrompt.split(/[,\n;]+/)`. -/
def splitSeps (cs : List Char) : List (List Char) :=
  splitSepsF (cs.length + 1) cs []

/-- Model of `.replace(/^[-*]\s*/, '')`: strip one leading bullet character
and the whitespace after it. -/
def stripBulletMarker (cs : List Char) : List Char :=
  match cs with
  | [] => []
  | c :: rest => if c == '-' || c == '*' then rest.dropWhile jsIsWs else cs

/-- The per-term mapping of `convertToKeyterms`: `t.trim()` then the bullet
strip. -/
def processVocabTerm (t : List Char) : List Char :=
  stripBulletMarker (jsTrim t)

/-- The filter of `convertToKeyterms`: keep terms of length in `(0, 50]`. -/
def isValidVocabTerm (t : List Char) : Bool :=
  decide (0 < t.length) && decide (t.length ≤ 50)

/-- `MAX_KEYWORDS` from `src/providers/deepgram.ts`. -/
def MAX_KEYWORDS : ℕ := 100

/-- The term list of `convertToKeyterms` from `src/providers/deepgram.ts`:
split, trim and de-bullet, drop empty or over-50-character entries, cap at
100 terms. -/
def keytermList (initialPrompt : List Char) : List (List Char) :=
  (((splitSeps initialPrompt).map processVocabTerm).filter isValidVocabTerm).take MAX_KEYWORDS

/-- `convertToKeyterms` from `src/providers/deepgram.ts`: the capped term
list joined with commas. -/
def convertToKeyterms (initialPrompt : List Char) : List Char :=
  List.intercalate [','] (keytermList initialPrompt)

/-- `buildDeepgramUrl` from `src/providers/deepgram.ts` as its ordered query
parameters: base parameters, then `language` (lowercased) in monolingual mode
or `detect_language=true` otherwise, then — in both modes — `keyterm`
whenever the vocabulary string is non-empty. -/
def buildDeepgramUrlParams (language : Option (List Char)) (vocabularyTerms : List Char) :
    List (List Char × List Char) :=
  let base := [("model".toList, "nova-3".toList),
               ("smart_format".toList, "true".toList),
               ("utterances".toList, "true".toList)]
  let isMonolingual := match language with
    | some l => !l.isEmpty && decide (l.map Char.toLower ≠ "auto".toList)
    | none => false
  let withLang :=
    if isMonolingual then
      base ++ [("language".toList, ((language.getD []).map Char.toLower))]
    else
      base ++ [("detect_language".toList, "true".toList)]
  if vocabularyTerms.length ≠ 0 then
    withLang ++ [("keyterm".toList, vocabularyTerms)]
  else withLang

/-- The query parameters of the request `transcribeWithDeepgram` makes:
keyterms are computed from the prompt when one is given, and handed to
`buildDeepgramUrl` unconditionally. -/
def transcribeDeepgramUrlParams (language : Option (List Char))
    (initialPrompt : Option (List Char)) : List (List Char × List Char) :=
  buildDeepgramUrlParams language
    (match initialPrompt with
     | some p => convertToKeyterms p
     | none => [])

/-- A concrete 150-term vocabulary hint. -/
def vocabHint150 : List Char :=
  List.intercalate [','] (List.replicate 150 "term".toList)

/-- C7.  Evaluating the pipeline: a 150-term hint with `language="en"`
forwards exactly the first 100 terms, each at most 50 characters, in order,
as the `keyterm` parameter next to `language=en` — but with
`language="auto"` the code still forwards the `keyterm` parameter
(`detect_language=true` and `keyterm` together), contradicting the claim
(and `src/references/custom-vocab.md`, which states no vocabulary parameter
is used in auto mode). -/
theorem deepgram_auto_language_still_forwards_keyterms :
    keytermList vocabHint150 = List.replicate 100 "term".toList ∧
    (keytermList vocabHint150).length = 100 ∧
    (∀ t ∈ keytermList vocabHint150, t.length ≤ 50) ∧
    ("language".toList, "en".toList) ∈
      transcribeDeepgramUrlParams (some "en".toList) (some vocabHint150) ∧
    ("keyterm".toList, convertToKeyterms vocabHint150) ∈
      transcribeDeepgramUrlParams (some "en".toList) (some vocabHint150) ∧
    ("detect_language".toList, "true".toList) ∈
      transcribeDeepgramUrlParams (some "auto".toList) (some "HyperWhisper".toList) ∧
    ("keyterm".toList, "HyperWhisper".toList) ∈
      transcribeDeepgramUrlParams (some "auto".toList) (some "HyperWhisper".toList) := by
  set_option maxRecDepth 10000 in decide

end HyperWhisper
